import Mathlib

/-!
Verification of the snowcord worker-runtime supervisor
(`src/runtime/restProcess.ts` supervisor section, `src/runtime/botProcess.ts`,
`src/helpers/getShardInfoFromGuild.ts`).

Each definition is a shallow embedding of the corresponding TypeScript
function; JS numbers that hold shard ids are modelled as `Int`, opaque
payloads as `Nat`, JS `Map`s as association lists with `Map.set`
overwrite semantics, and `throw` as `Except.error`.
-/

namespace Snowcord

/-- `RuntimeBotWorkerConfig` from `src/runtime/types.ts`: a bot worker id
and the list of shard ids it owns. -/
structure RuntimeBotWorkerConfig where
  id : String
  shards : List Int
  deriving Repr, DecidableEq

/-- The inclusive ascending run of `n` shard ids starting at `start`,
as pushed by the `for` loops of `expandShardRange` (range branch) and of
the numeric branch of `normalizeBotWorkers`. -/
def shardRun (start : Int) (n : Nat) : List Int :=
  (List.range n).map (fun (k : Nat) => start + (k : Int))

/-- Stable insertion into a sorted list, used to model the JS
`Array.prototype.sort` with a numeric comparator. -/
def sortInsert (le : α → α → Bool) (a : α) : List α → List α
  | [] => [a]
  | b :: rest => if le a b then a :: b :: rest else b :: sortInsert le a rest

/-- Stable sort by a boolean `le`, modelling JS `.sort((a, b) => key a - key b)`. -/
def sortByLe (le : α → α → Bool) : List α → List α
  | [] => []
  | a :: rest => sortInsert le a (sortByLe le rest)

/-- Argument of `expandShardRange` in `restProcess.ts`: a bot worker's
`shards` field is either an explicit array of shard ids, or a
`{ start, end }` range object. -/
inductive ShardsSpec where
  | arr (values : List Int)
  | range (startId endId : Int)
  deriving Repr, DecidableEq

/-- `expandShardRange` from `restProcess.ts`: an explicit array is
validated (every entry a non-negative integer — integrality is inherent to
the `Int` model), deduplicated (`new Set`, first occurrence kept) and
sorted ascending; a range object with `end < start` throws, otherwise the
inclusive run `start..end` is produced. -/
def expandShardRange : ShardsSpec → Except String (List Int)
  | .arr values =>
    match values.find? (fun v => decide (v < 0)) with
    | some bad =>
      .error ("Invalid shard id \"" ++ toString bad ++
        "\" in bot worker shards array. Use non-negative integers.")
    | none => .ok (sortByLe (fun a b => decide (a ≤ b)) values.eraseDups)
  | .range s e =>
    if e < s then
      .error ("Invalid shard range " ++ toString s ++ "-" ++ toString e)
    else
      .ok (shardRun s (e - s + 1).toNat)

/-- The generator loop of the numeric branch of `normalizeBotWorkers`
(`for (let index = 0; index < workerCount; ...)`): worker `index` gets
`baseSize + (index < remainder ? 1 : 0)` consecutive shards starting at
`cursor`, with id `bot-<index>`. `count` is the number of workers still
to generate. -/
def evenSplitLoop (baseSize remainder : Nat) (cursor : Int) (index count : Nat) :
    List RuntimeBotWorkerConfig :=
  match count with
  | 0 => []
  | Nat.succ rest =>
    let shardCountForWorker := baseSize + (if index < remainder then 1 else 0)
    { id := "bot-" ++ toString index, shards := shardRun cursor shardCountForWorker }
      :: evenSplitLoop baseSize remainder (cursor + (shardCountForWorker : Int)) (index + 1) rest

/-- The numeric branch of `normalizeBotWorkers` in `restProcess.ts`
(`typeof workers === "number"`): the total shard count
`lastShardId - firstShardId + 1` is split into `workerCount` workers,
`baseSize = Math.floor(T / N)` and `remainder = T % N`.  `normalizeCluster`
throws on a reversed cluster range before this runs, so
`firstShardId ≤ lastShardId` at every call site and the `Nat` division and
modulo coincide with the JS `Math.floor` / `%` on the non-negative
operands that occur here. -/
def normalizeBotWorkersCount (firstShardId lastShardId : Int) (workerCount : Nat) :
    List RuntimeBotWorkerConfig :=
  let totalShardCount := (lastShardId - firstShardId + 1).toNat
  let baseSize := totalShardCount / workerCount
  let remainder := totalShardCount % workerCount
  evenSplitLoop baseSize remainder firstShardId 0 workerCount

/-- Boolean check that a list of shard ids is an ascending contiguous run
(each element is its predecessor plus one). -/
def contiguousAsc : List Int → Bool
  | [] => true
  | [_] => true
  | a :: b :: rest => decide (b = a + 1) && contiguousAsc (b :: rest)

/-- JS truthiness of a string (the empty string is falsy), used where the
supervisor checks `workerId ? ... : undefined` and `if (!workerId)`. -/
def jsTruthy (s : String) : Bool := s != ""

/-- A `runtime:gateway:event` message from the gateway process: a shard id
plus an opaque payload (modelled by a `Nat` tag). -/
structure RouteEvent where
  shardId : Int
  payload : Nat
  deriving Repr, DecidableEq

/-- The supervisor's routing state inside `startWorkerRuntime`:
`shardOwner` (shard id → worker id, `Map.get` as a function), the set of
keys of the live `botChildren` map, and the `pendingEvents` buffer. -/
structure RouterState where
  shardOwner : Int → Option String
  botChildren : List String
  pendingEvents : List RouteEvent

/-- The `runtime:gateway:event` branch of the gateway `message` handler in
`spawnGatewayWorker`: resolve the owner
(`workerId ? botChildren.get(workerId) : undefined`); with no live worker
the event is pushed onto `pendingEvents`, otherwise it is sent to the
owner.  Returns the new state plus the list of `(workerId, event)` sends. -/
def routeGatewayEvent (st : RouterState) (ev : RouteEvent) :
    RouterState × List (String × RouteEvent) :=
  match st.shardOwner ev.shardId with
  | some workerId =>
    if jsTruthy workerId && st.botChildren.contains workerId then
      (st, [(workerId, ev)])
    else
      ({ st with pendingEvents := st.pendingEvents ++ [ev] }, [])
  | none => ({ st with pendingEvents := st.pendingEvents ++ [ev] }, [])

/-- Route a whole arrival sequence, concatenating the sends in order. -/
def routeEvents (st : RouterState) : List RouteEvent → RouterState × List (String × RouteEvent)
  | [] => (st, [])
  | ev :: rest =>
    let r1 := routeGatewayEvent st ev
    let r2 := routeEvents r1.1 rest
    (r2.1, r1.2 ++ r2.2)

/-- The loop of `flushPendingEventsForWorker`: walk the buffered events in
order; an event whose owner is `workerId` is sent, every other event is
kept, both in arrival order.  Returns `(keep, sent)`. -/
def flushLoop (owner : Int → Option String) (workerId : String) :
    List RouteEvent → List RouteEvent × List RouteEvent
  | [] => ([], [])
  | ev :: rest =>
    let r := flushLoop owner workerId rest
    if owner ev.shardId == some workerId then (r.1, ev :: r.2)
    else (ev :: r.1, r.2)

/-- `flushPendingEventsForWorker` from `restProcess.ts`, invoked when a
worker announces `runtime:bot:ready`: a no-op if the worker is not a live
child; otherwise the buffered events owned by the worker are sent to it in
arrival order and the remaining events stay queued. -/
def flushPendingEventsForWorker (st : RouterState) (workerId : String) :
    RouterState × List (String × RouteEvent) :=
  if st.botChildren.contains workerId then
    let r := flushLoop st.shardOwner workerId st.pendingEvents
    ({ st with pendingEvents := r.1 }, r.2.map (fun ev => (workerId, ev)))
  else (st, [])

/-- `botChildren.set(worker.id, child)` at the end of `spawnBotWorker`:
the worker id becomes (or stays) a live child. -/
def addBotChild (st : RouterState) (workerId : String) : RouterState :=
  { st with botChildren := workerId :: st.botChildren.erase workerId }

/-- The condition under which the gateway `message` handler buffers an
event instead of delivering it: the owner lookup is absent or falsy, or
the owning worker has no live child entry (mid-restart). -/
def eventIsBuffered (st : RouterState) (ev : RouteEvent) : Bool :=
  match st.shardOwner ev.shardId with
  | some workerId => !(jsTruthy workerId && st.botChildren.contains workerId)
  | none => true

/-- Ownership map for the respawn-window scenario: shard `0` is owned by
worker `a`. -/
def respawnOwner : Int → Option String :=
  fun sid => if sid = 0 then some "a" else none

/-- Routing state mid-restart: worker `a` owns shard `0` but has no live
child entry (its old process exited, the new one is not yet forked). -/
def respawnAbsent : RouterState :=
  { shardOwner := respawnOwner, botChildren := [], pendingEvents := [] }

/-- `Map.set` on an association list: the new write shadows earlier ones. -/
def mapSet (m : List (Int × String)) (k : Int) (v : String) : List (Int × String) :=
  (k, v) :: m.filter (fun p => p.1 != k)

/-- The `shardOwner` map as built at supervisor start
(`for (const worker of runtime.cluster.botWorkers) for (const shardId of
worker.shards) shardOwner.set(shardId, worker.id)`). -/
def buildShardOwner (workers : List RuntimeBotWorkerConfig) : List (Int × String) :=
  workers.foldl (fun m w => w.shards.foldl (fun m2 sid => mapSet m2 sid w.id) m) []

/-- `restartShard` from the controller returned by `startWorkerRuntime`:
resolve the owning worker (`shardOwner.get(shardId)`); if the lookup is
falsy, throw synchronously; otherwise name the worker to be restarted
(`restartBotWorkerById` is reached only on success, so the error path
performs no process action and mutates no state). -/
def restartShardResolve (owner : List (Int × String)) (shardId : Int) :
    Except String String :=
  match owner.lookup shardId with
  | some workerId =>
    if jsTruthy workerId then .ok workerId
    else .error ("No worker owns shard " ++ toString shardId ++ ".")
  | none => .error ("No worker owns shard " ++ toString shardId ++ ".")

/-- Messages a bot worker process receives over IPC
(`BotInboundMessage` in `src/runtime/types.ts`), as discriminated by the
`message` handler of `botProcess.ts`; kinds other than shutdown and
gateway events (for example a shard-info response) are modelled by
`other`. -/
inductive BotInbound where
  | shutdown
  | gatewayEvent (shardId : Int) (payload : Nat)
  | other
  deriving Repr, DecidableEq

/-- A bot worker's reaction to one inbound message. -/
inductive BotReaction where
  | exitProcess
  | dispatch (shardId : Int) (payload : Nat)
  | ignore
  deriving Repr, DecidableEq

/-- The `process.on("message", ...)` handler of `botProcess.ts` `main`:
shutdown exits the process; a gateway event is dispatched
(`handleGatewayEvent`) iff its shard id is in the worker's shard set
(`shardSet = new Set(env.worker.shards)`), and is silently dropped
otherwise; every other message is ignored. -/
def botHandleMessage (shards : List Int) : BotInbound → BotReaction
  | .shutdown => .exitProcess
  | .gatewayEvent sid payload =>
    if shards.contains sid then .dispatch sid payload else .ignore
  | .other => .ignore

/-- A respawn timer scheduled by the bot-worker exit handler: the captured
`worker` closure (the same `RuntimeBotWorkerConfig` the exited child had)
and the backoff delay in milliseconds. -/
structure PendingRespawn where
  worker : RuntimeBotWorkerConfig
  delayMs : Nat
  deriving Repr, DecidableEq

/-- Supervisor lifecycle state relevant to exits, respawns and `stop()`:
the `stopped` and `reloading` flags, the key set of the `botChildren` map,
the `expectedBotWorkerShutdowns` set, and the not-yet-fired respawn
timers. -/
structure SupState where
  stopped : Bool
  reloading : Bool
  botChildren : List String
  expectedShutdowns : List String
  pendingRespawns : List PendingRespawn
  deriving Repr, DecidableEq

/-- The `child.on("exit", ...)` handler installed by `spawnBotWorker`: the
child is removed from `botChildren`, the expected-shutdown flag is read
and consumed, and — only when the supervisor is not stopped, the exit was
not expected, and no reload is in progress — a 250 ms respawn timer
capturing the same `worker` config is scheduled. -/
def handleBotExit (s : SupState) (worker : RuntimeBotWorkerConfig) : SupState :=
  let expected := s.expectedShutdowns.contains worker.id
  let s1 := { s with botChildren := s.botChildren.erase worker.id,
                     expectedShutdowns := s.expectedShutdowns.erase worker.id }
  if !s1.stopped && !expected && !s1.reloading then
    { s1 with pendingRespawns := s1.pendingRespawns ++ [⟨worker, 250⟩] }
  else s1

/-- The body of the scheduled `setTimeout` callback: if the supervisor was
stopped meanwhile or the worker is live again
(`if (stopped || botChildren.has(worker.id)) return;`), nothing happens;
otherwise `spawnBotWorker(worker)` runs and the worker id becomes a live
child again.  Returns the new state and the workers spawned. -/
def fireRespawnTimer (s : SupState) (timer : PendingRespawn) :
    SupState × List RuntimeBotWorkerConfig :=
  if s.pendingRespawns.contains timer then
    let s1 := { s with pendingRespawns := s.pendingRespawns.erase timer }
    if s1.stopped || s1.botChildren.contains timer.worker.id then (s1, [])
    else ({ s1 with botChildren := timer.worker.id :: s1.botChildren }, [timer.worker])
  else (s, [])

/-- `stop()` from the controller: an idempotent transition that sets
`stopped` and shuts every live child down (clearing `botChildren`). -/
def stopSupervisor (s : SupState) : SupState :=
  if s.stopped then s else { s with stopped := true, botChildren := [] }

/-- The asynchronous occurrences driving the exit/respawn machinery. -/
inductive SupEvent where
  | botExit (worker : RuntimeBotWorkerConfig)
  | respawnTimer (timer : PendingRespawn)
  | callStop
  deriving Repr, DecidableEq

/-- One step of the exit/respawn machinery. -/
def supStep (s : SupState) : SupEvent → SupState × List RuntimeBotWorkerConfig
  | .botExit w => (handleBotExit s w, [])
  | .respawnTimer t => fireRespawnTimer s t
  | .callStop => (stopSupervisor s, [])

/-- Run a sequence of events, collecting every worker spawned. -/
def supRun (s : SupState) : List SupEvent → SupState × List RuntimeBotWorkerConfig
  | [] => (s, [])
  | e :: rest =>
    let r1 := supStep s e
    let r2 := supRun r1.1 rest
    (r2.1, r1.2 ++ r2.2)

/-- `Number.MAX_SAFE_INTEGER`, the sort key `reloadLazy` gives a worker
with no shards. -/
def maxSafeInteger : Int := 9007199254740991

/-- The `reloadLazy` sort key: `worker.shards[0] ?? Number.MAX_SAFE_INTEGER`. -/
def lowestShardKey (w : RuntimeBotWorkerConfig) : Int :=
  w.shards.headD maxSafeInteger

/-- `[...runtime.cluster.botWorkers].sort((a, b) => aStart - bStart)` in
`reloadLazy`: a stable sort of the workers by lowest-owned shard id. -/
def sortWorkersByLowestShard (workers : List RuntimeBotWorkerConfig) :
    List RuntimeBotWorkerConfig :=
  sortByLe (fun a b => decide (lowestShardKey a ≤ lowestShardKey b)) workers

/-- The awaited process-level actions of the `reloadLazy` restart loop, in
program order.  `restartBotWorkerById` (live-child path) sends shutdown,
awaits the old child's exit (`killChild` resolves on the `exit` event),
and then spawns the replacement; there is no action that waits for the
respawned worker's `runtime:bot:ready` announcement, because the code
contains none. -/
inductive SupAction where
  | sendShutdown (workerId : String)
  | awaitExit (workerId : String)
  | spawn (workerId : String)
  deriving Repr, DecidableEq

/-- The action trace of `restartBotWorkerById(workerId)` when the worker
has a live child. -/
def restartWorkerTrace (workerId : String) : List SupAction :=
  [.sendShutdown workerId, .awaitExit workerId, .spawn workerId]

/-- The action trace of the sequential restart loop of `reloadLazy`
(`for (const worker of workersInOrder) await restartBotWorkerById(...)`). -/
def reloadLazyTrace (workers : List RuntimeBotWorkerConfig) : List SupAction :=
  (sortWorkersByLowestShard workers).flatMap (fun w => restartWorkerTrace w.id)

/-- One observable occurrence during a lazy reload: the supervisor
performs its next trace action, or a respawned worker's
`runtime:bot:ready` announcement arrives asynchronously. -/
inductive LazyEvent where
  | act (a : SupAction)
  | ready (workerId : String)
  deriving Repr, DecidableEq

/-- Project the supervisor actions out of a schedule. -/
def scheduleActions (sched : List LazyEvent) : List SupAction :=
  sched.filterMap (fun e => match e with | .act a => some a | .ready _ => none)

/-- Readiness announcements may only follow the spawn of the announcing
worker (a child announces ready after it boots; nothing makes it do so
before the supervisor proceeds). -/
def readyAfterSpawnOk (spawned : List String) : List LazyEvent → Bool
  | [] => true
  | .act (.spawn w) :: rest => readyAfterSpawnOk (w :: spawned) rest
  | .act _ :: rest => readyAfterSpawnOk spawned rest
  | .ready w :: rest => spawned.contains w && readyAfterSpawnOk spawned rest

/-- A schedule is a possible execution of a supervisor trace when its
supervisor actions are exactly that trace in order and every readiness
announcement follows the corresponding spawn. -/
def validSchedule (trace : List SupAction) (sched : List LazyEvent) : Bool :=
  (scheduleActions sched == trace) && readyAfterSpawnOk [] sched

/-- The workers that are not ready after a schedule prefix: a worker
becomes non-ready when it is sent shutdown and ready again only when its
readiness announcement arrives. -/
def nonReadyAfter (sched : List LazyEvent) : List String :=
  sched.foldl
    (fun acc e =>
      match e with
      | .act (.sendShutdown w) => if acc.contains w then acc else acc ++ [w]
      | .ready w => acc.erase w
      | _ => acc) []

/-- A valid execution of `reloadLazy` on the spec's three-worker scenario
in which every readiness announcement arrives only after the whole restart
loop: possible because the loop never waits for readiness. -/
def lazyOverlapSchedule : List LazyEvent :=
  [.act (.sendShutdown "w0"), .act (.awaitExit "w0"), .act (.spawn "w0"),
   .act (.sendShutdown "w1"), .act (.awaitExit "w1"), .act (.spawn "w1"),
   .act (.sendShutdown "w2"), .act (.awaitExit "w2"), .act (.spawn "w2"),
   .ready "w0", .ready "w1", .ready "w2"]

/-- The suspension-point-delimited steps of a reload implementation
(`reload` / `reloadLazy` / `fullReload`): `enter` is the synchronous
prefix `if (stopped) return; reloading = true;` up to the first `await`;
`restart` is one awaited restart step of the body; `exitStep` is the final
`reloading = false`. -/
inductive ReloadStep where
  | enter
  | restart (workerId : String)
  | exitStep
  deriving Repr, DecidableEq

/-- The step list of a `reloadLazy` invocation. -/
def reloadLazyProgram (workers : List RuntimeBotWorkerConfig) : List ReloadStep :=
  .enter :: (sortWorkersByLowestShard workers).map (fun w => ReloadStep.restart w.id)
    ++ [.exitStep]

/-- Tag distinguishing two concurrent reload invocations. -/
inductive ReloadTag where
  | A
  | B
  deriving Repr, DecidableEq

/-- Shared supervisor flags plus, per invocation, whether it already
returned early from its `enter` guard. -/
structure TwoReloadState where
  stopped : Bool
  reloading : Bool
  aAborted : Bool
  bAborted : Bool
  deriving Repr, DecidableEq

/-- Whether the tagged invocation has returned early. -/
def tagAborted (s : TwoReloadState) : ReloadTag → Bool
  | .A => s.aAborted
  | .B => s.bAborted

/-- Record that the tagged invocation returned early. -/
def setAborted (s : TwoReloadState) : ReloadTag → TwoReloadState
  | .A => { s with aAborted := true }
  | .B => { s with bAborted := true }

/-- Execute one tagged reload step; steps of an invocation that returned
early do nothing.  Faithful to the source, `enter` returns early iff
`stopped` is set — the `reloading` flag is not consulted anywhere —
otherwise it sets `reloading`; `exitStep` clears it.  Returns the new
state and the executed occurrence, if any. -/
def twoReloadStep (s : TwoReloadState) (t : ReloadTag) :
    ReloadStep → TwoReloadState × List (ReloadTag × ReloadStep)
  | .enter =>
    if tagAborted s t then (s, [])
    else if s.stopped then (setAborted s t, [])
    else ({ s with reloading := true }, [(t, .enter)])
  | .restart w =>
    if tagAborted s t then (s, []) else (s, [(t, .restart w)])
  | .exitStep =>
    if tagAborted s t then (s, [])
    else ({ s with reloading := false }, [(t, .exitStep)])

/-- Run a tagged schedule, collecting the executed occurrences. -/
def twoReloadRun (s : TwoReloadState) :
    List (ReloadTag × ReloadStep) → TwoReloadState × List (ReloadTag × ReloadStep)
  | [] => (s, [])
  | e :: rest =>
    let r1 := twoReloadStep s e.1 e.2
    let r2 := twoReloadRun r1.1 rest
    (r2.1, r1.2 ++ r2.2)

/-- `sched` interleaves program `pa` (tag `A`) with program `pb` (tag `B`),
preserving each program's order — exactly the executions the single
threaded event loop allows for two overlapping async invocations. -/
def isInterleaving (pa pb : List ReloadStep)
    (sched : List (ReloadTag × ReloadStep)) : Bool :=
  (sched.filterMap (fun e => if e.1 == ReloadTag.A then some e.2 else none) == pa)
    && (sched.filterMap (fun e => if e.1 == ReloadTag.B then some e.2 else none) == pb)

/-- In any real schedule an invocation's body steps come after its
`enter` (an async function body cannot run before its call). -/
def entersFirst (aEntered bEntered : Bool) : List (ReloadTag × ReloadStep) → Bool
  | [] => true
  | (.A, .enter) :: rest => entersFirst true bEntered rest
  | (.B, .enter) :: rest => entersFirst aEntered true rest
  | (.A, _) :: rest => aEntered && entersFirst aEntered bEntered rest
  | (.B, _) :: rest => bEntered && entersFirst aEntered bEntered rest

/-- The tags whose `restart` steps executed while the other invocation was
mid-reload (entered but not yet exited). -/
def overlappedRestartsGo (activeA activeB : Bool) :
    List (ReloadTag × ReloadStep) → List ReloadTag
  | [] => []
  | (.A, .enter) :: rest => overlappedRestartsGo true activeB rest
  | (.B, .enter) :: rest => overlappedRestartsGo activeA true rest
  | (.A, .exitStep) :: rest => overlappedRestartsGo false activeB rest
  | (.B, .exitStep) :: rest => overlappedRestartsGo activeA false rest
  | (.A, .restart _) :: rest =>
    if activeB then .A :: overlappedRestartsGo activeA activeB rest
    else overlappedRestartsGo activeA activeB rest
  | (.B, .restart _) :: rest =>
    if activeA then .B :: overlappedRestartsGo activeA activeB rest
    else overlappedRestartsGo activeA activeB rest

/-- Restart steps of one invocation executed while the other was active. -/
def overlappedRestarts (executed : List (ReloadTag × ReloadStep)) : List ReloadTag :=
  overlappedRestartsGo false false executed

/-- A valid interleaving of two `reloadLazy` invocations on two workers in
which the second invocation enters and runs its whole body while the first
is still mid-reload. -/
def reloadOverlapSchedule : List (ReloadTag × ReloadStep) :=
  [(.A, .enter), (.B, .enter),
   (.B, .restart "w0"), (.B, .restart "w1"), (.B, .exitStep),
   (.A, .restart "w0"), (.A, .restart "w1"), (.A, .exitStep)]

/-- A `runtime:gateway:shard-info-response` message: correlation nonce,
resolved shard id and heartbeat round-trip time (`-1` if unknown). -/
structure ShardInfoResponse where
  nonce : String
  shardId : Int
  rtt : Int
  deriving Repr, DecidableEq

/-- How a `getShardInfoFromGuild` promise settles. -/
inductive ShardInfoOutcome where
  | timeoutError
  | info (shardId : Int) (rtt : Int)
  deriving Repr, DecidableEq

/-- The caller side of `getShardInfoFromGuild` (worker-runtime branch):
whether the promise's `message` listener is still installed, the generated
nonce it filters on, and the settled outcome, if any. -/
structure CallerState where
  listening : Bool
  nonce : String
  outcome : Option ShardInfoOutcome
  deriving Repr, DecidableEq

/-- The 5000 ms `setTimeout` body in `getShardInfoFromGuild`: `cleanup()`
removes the caller's listener and the promise rejects with the distinct
timeout error.  (Once `cleanup` has run the timer is cleared, so the body
only ever runs while the listener is installed.) -/
def callerOnTimeout (c : CallerState) : CallerState :=
  if c.listening then { c with listening := false, outcome := some .timeoutError }
  else c

/-- The caller's `onMessage` listener: a shard-info response with the
matching nonce resolves the promise and removes the listener; with the
listener already removed (after a timeout) the message is a no-op for the
caller. -/
def callerOnMessage (c : CallerState) (r : ShardInfoResponse) : CallerState :=
  if c.listening && (r.nonce == c.nonce) then
    { c with listening := false, outcome := some (.info r.shardId r.rtt) }
  else c

/-- `shardInfoRequests.set(incoming.nonce, child)` in the supervisor's
bot-worker message handler for `runtime:gateway:get-shard-info`
(`Map.set`: the new entry shadows any earlier one). -/
def supervisorOnShardInfoRequest (m : List (String × String))
    (nonce requester : String) : List (String × String) :=
  (nonce, requester) :: m.filter (fun p => p.1 != nonce)

/-- The `runtime:gateway:shard-info-response` branch of the supervisor's
gateway `message` handler: look the requester up, delete the entry
unconditionally, and forward the response to the requester if one was
recorded.  Nothing else in the supervisor ever removes a
`shardInfoRequests` entry (in particular no timeout does). -/
def supervisorOnShardInfoResponse (m : List (String × String))
    (r : ShardInfoResponse) : List (String × String) × List (String × ShardInfoResponse) :=
  match m.lookup r.nonce with
  | some requester => (m.filter (fun p => p.1 != r.nonce), [(requester, r)])
  | none => (m.filter (fun p => p.1 != r.nonce), [])

/- ### Lemmas about `shardRun` -/

theorem shardRun_zero (start : Int) : shardRun start 0 = [] := rfl

theorem shardRun_succ_front (start : Int) (n : Nat) :
    shardRun start (n + 1) = start :: shardRun (start + 1) n := by
  unfold shardRun
  rw [List.range_succ_eq_map, List.map_cons, List.map_map]
  refine congrArg₂ _ (by simp) ?_
  refine List.map_congr_left (fun k _ => ?_)
  simp [Function.comp]
  ring

theorem shardRun_append (start : Int) (a b : Nat) :
    shardRun start (a + b) = shardRun start a ++ shardRun (start + (a : Int)) b := by
  unfold shardRun
  rw [List.range_add, List.map_append, List.map_map]
  refine congrArg₂ _ rfl ?_
  refine List.map_congr_left (fun k _ => ?_)
  simp [Function.comp]
  ring

theorem length_shardRun (start : Int) (n : Nat) : (shardRun start n).length = n := by
  simp [shardRun]

theorem mem_shardRun (start : Int) (n : Nat) (x : Int) :
    x ∈ shardRun start n ↔ start ≤ x ∧ x < start + (n : Int) := by
  simp only [shardRun, List.mem_map, List.mem_range]
  constructor
  · rintro ⟨k, hk, rfl⟩
    omega
  · rintro ⟨h1, h2⟩
    exact ⟨(x - start).toNat, by omega, by omega⟩

theorem nodup_shardRun (start : Int) (n : Nat) : (shardRun start n).Nodup := by
  refine List.Nodup.map ?_ (List.nodup_range n)
  intro a b h
  have h' : start + (a : Int) = start + (b : Int) := h
  omega

theorem contiguousAsc_shardRun (start : Int) (n : Nat) :
    contiguousAsc (shardRun start n) = true := by
  induction n generalizing start with
  | zero => rfl
  | succ m ih =>
    rw [shardRun_succ_front]
    match m, ih with
    | 0, _ => rfl
    | m' + 1, ih =>
      rw [shardRun_succ_front]
      show (decide (start + 1 = start + 1)
        && contiguousAsc ((start + 1) :: shardRun (start + 1 + 1) m')) = true
      rw [← shardRun_succ_front]
      simpa using ih (start + 1)

/- ### Lemmas about the even-split loop -/

theorem evenSplitLoop_length (baseSize remainder : Nat) (cursor : Int) (index count : Nat) :
    (evenSplitLoop baseSize remainder cursor index count).length = count := by
  induction count generalizing cursor index with
  | zero => rfl
  | succ rest ih => simp [evenSplitLoop, ih]

theorem evenSplitLoop_flatten (baseSize remainder : Nat) (cursor : Int) (index count : Nat) :
    ((evenSplitLoop baseSize remainder cursor index count).map RuntimeBotWorkerConfig.shards).flatten
      = shardRun cursor
          (baseSize * count + (min remainder (index + count) - min remainder index)) := by
  induction count generalizing cursor index with
  | zero => simp [evenSplitLoop, shardRun]
  | succ rest ih =>
    rw [evenSplitLoop]
    simp only [List.map_cons, List.flatten_cons]
    rw [ih]
    rw [← shardRun_append]
    refine congrArg _ ?_
    rw [Nat.mul_succ]
    by_cases h : index < remainder <;> simp only [h, if_true, if_false] <;> omega

theorem evenSplitLoop_getD_shards (baseSize remainder : Nat) (cursor : Int)
    (index count i : Nat) (h : i < count) :
    ((evenSplitLoop baseSize remainder cursor index count).getD i ⟨"", []⟩).shards.length
      = baseSize + (if index + i < remainder then 1 else 0) := by
  induction count generalizing cursor index i with
  | zero => omega
  | succ rest ih =>
    cases i with
    | zero =>
      simp [evenSplitLoop, length_shardRun]
    | succ j =>
      rw [evenSplitLoop]
      show ((evenSplitLoop baseSize remainder _ (index + 1) rest).getD j ⟨"", []⟩).shards.length = _
      rw [ih _ _ _ (by omega)]
      have : index + 1 + j = index + (j + 1) := by omega
      rw [this]

theorem evenSplitLoop_mem_shards (baseSize remainder : Nat) (cursor : Int)
    (index count : Nat) (w : RuntimeBotWorkerConfig)
    (hw : w ∈ evenSplitLoop baseSize remainder cursor index count) :
    ∃ c n, w.shards = shardRun c n := by
  induction count generalizing cursor index with
  | zero => simp [evenSplitLoop] at hw
  | succ rest ih =>
    rw [evenSplitLoop] at hw
    rcases List.mem_cons.mp hw with h | h
    · exact ⟨cursor, _, by rw [h]⟩
    · exact ih _ _ h

/-- Ceiling division fact used for the even-split size claim: when the
remainder is positive, `⌈T/N⌉ = ⌊T/N⌋ + 1`. -/
theorem ceil_div_of_mod_pos {T N : Nat} (hN : 0 < N) (hr : T % N ≠ 0) :
    (T + N - 1) / N = T / N + 1 := by
  have hmod := Nat.div_add_mod T N
  have hlt : T % N < N := Nat.mod_lt _ hN
  have h1 : 1 ≤ T % N := by omega
  have heq : T + N - 1 = N * (T / N) + (T % N + N - 1) := by omega
  rw [heq, Nat.mul_add_div hN]
  have : (T % N + N - 1) / N = 1 := by
    refine Nat.div_eq_of_lt_le (by omega) (by omega)
  omega

/- ### C3 and C9 theorems -/

/-- Claim C3: for valid `totalShards` and positive worker count, the
even-split planner covers the cluster range exactly (the concatenation of
all workers' assignments, in worker order, is precisely the ascending run
`firstShardId .. lastShardId`, so every shard is assigned to exactly one
worker), produces `workerCount` workers, gives `⌈T/N⌉` shards to the first
`T mod N` workers and `⌊T/N⌋` to the rest, keeps each worker's shards an
ascending contiguous range, and is deterministic (a pure function of its
inputs). -/
theorem normalizeBotWorkersCount_even_split
    (firstShardId lastShardId : Int) (workerCount : Nat)
    (hRange : firstShardId ≤ lastShardId) (hN : 0 < workerCount) :
    ((normalizeBotWorkersCount firstShardId lastShardId workerCount).map
        RuntimeBotWorkerConfig.shards).flatten
      = shardRun firstShardId (lastShardId - firstShardId + 1).toNat
    ∧ (normalizeBotWorkersCount firstShardId lastShardId workerCount).length = workerCount
    ∧ (∀ i, i < workerCount →
        (((normalizeBotWorkersCount firstShardId lastShardId workerCount).getD i
            ⟨"", []⟩).shards.length
          = if i < (lastShardId - firstShardId + 1).toNat % workerCount then
              ((lastShardId - firstShardId + 1).toNat + workerCount - 1) / workerCount
            else (lastShardId - firstShardId + 1).toNat / workerCount))
    ∧ (∀ w ∈ normalizeBotWorkersCount firstShardId lastShardId workerCount,
        contiguousAsc w.shards = true)
    ∧ normalizeBotWorkersCount firstShardId lastShardId workerCount
        = normalizeBotWorkersCount firstShardId lastShardId workerCount := by
  have hT : (lastShardId - firstShardId + 1).toNat % workerCount < workerCount :=
    Nat.mod_lt _ hN
  refine ⟨?_, ?_, ?_, ?_, rfl⟩
  · rw [normalizeBotWorkersCount, evenSplitLoop_flatten]
    refine congrArg _ ?_
    have hdm := Nat.div_add_mod' (lastShardId - firstShardId + 1).toNat workerCount
    omega
  · exact evenSplitLoop_length _ _ _ _ _
  · intro i hi
    rw [normalizeBotWorkersCount, evenSplitLoop_getD_shards _ _ _ _ _ _ hi]
    rw [Nat.zero_add]
    by_cases h : i < (lastShardId - firstShardId + 1).toNat % workerCount
    · rw [if_pos h, if_pos h, ceil_div_of_mod_pos hN (by omega)]
    · rw [if_neg h, if_neg h, Nat.add_zero]
  · intro w hw
    obtain ⟨c, n, hcn⟩ := evenSplitLoop_mem_shards _ _ _ _ _ w hw
    rw [hcn]
    exact contiguousAsc_shardRun c n

/-- Witness for C3 at `firstShardId = 0`, `lastShardId = 9`,
`workerCount = 4`: the concatenated assignment is `0..9`. -/
theorem normalizeBotWorkersCount_even_split_witness :
    ((0: Int) ≤ 9 ∧ 0 < 4)
    ∧ ((normalizeBotWorkersCount 0 9 4).map RuntimeBotWorkerConfig.shards).flatten
        = shardRun 0 (((9 : Int) - 0 + 1).toNat) :=
  ⟨⟨by decide, by decide⟩,
    (normalizeBotWorkersCount_even_split 0 9 4 (by decide) (by decide)).1⟩

/-- Claim C9: a shard range with `end < start` makes the planner fail with
a configuration error (never an empty or partial list), and a range with
`end ≥ start` expands to the full inclusive list of shard ids: the result
has exactly `end - start + 1` entries, contains an id iff it lies in
`[start, end]`, and is non-empty. -/
theorem expandShardRange_range_spec (s e : Int) :
    (e < s →
      expandShardRange (.range s e)
        = .error ("Invalid shard range " ++ toString s ++ "-" ++ toString e))
    ∧ (s ≤ e →
        expandShardRange (.range s e) = .ok (shardRun s (e - s + 1).toNat)
        ∧ (shardRun s (e - s + 1).toNat).length = (e - s + 1).toNat
        ∧ (∀ x : Int, x ∈ shardRun s (e - s + 1).toNat ↔ s ≤ x ∧ x ≤ e)
        ∧ shardRun s (e - s + 1).toNat ≠ []) := by
  constructor
  · intro h
    rw [expandShardRange, if_pos h]
  · intro h
    refine ⟨by rw [expandShardRange, if_neg (by omega)], length_shardRun _ _, ?_, ?_⟩
    · intro x
      rw [mem_shardRun]
      omega
    · have := length_shardRun s (e - s + 1).toNat
      intro hnil
      rw [hnil] at this
      simp at this
      omega

/-- Witness for C9: the reversed range `5-2` errors, and the range `2-5`
expands to `[2, 3, 4, 5]`. -/
theorem expandShardRange_range_spec_witness :
    ((5 : Int) > 2
      ∧ expandShardRange (.range 5 2) = .error "Invalid shard range 5-2")
    ∧ ((2 : Int) ≤ 5
      ∧ expandShardRange (.range 2 5) = .ok [2, 3, 4, 5]) :=
  ⟨⟨by decide, (expandShardRange_range_spec 5 2).1 (by decide)⟩,
   ⟨by decide, ((expandShardRange_range_spec 2 5).2 (by decide)).1⟩⟩

/- ### Routing and pending-event lemmas -/

theorem routeGatewayEvent_buffered (st : RouterState) (ev : RouteEvent)
    (h : eventIsBuffered st ev = true) :
    routeGatewayEvent st ev = ({ st with pendingEvents := st.pendingEvents ++ [ev] }, []) := by
  unfold routeGatewayEvent
  unfold eventIsBuffered at h
  cases hOwner : st.shardOwner ev.shardId with
  | none => rfl
  | some workerId =>
    rw [hOwner] at h
    simp only [Bool.not_eq_true'] at h
    simp only [h]
    simp [h]

theorem routeEvents_buffered (st : RouterState) (evs : List RouteEvent)
    (h : ∀ ev ∈ evs, eventIsBuffered st ev = true) :
    routeEvents st evs = ({ st with pendingEvents := st.pendingEvents ++ evs }, []) := by
  induction evs generalizing st with
  | nil => simp [routeEvents]
  | cons ev rest ih =>
    have h1 := routeGatewayEvent_buffered st ev (h ev (List.mem_cons_self ev rest))
    rw [routeEvents, h1]
    have h2 : ∀ e ∈ rest, eventIsBuffered { st with pendingEvents := st.pendingEvents ++ [ev] } e = true :=
      fun e he => h e (List.mem_cons_of_mem _ he)
    rw [ih _ h2]
    simp

theorem flushLoop_eq_filter (owner : Int → Option String) (workerId : String)
    (l : List RouteEvent) :
    flushLoop owner workerId l
      = (l.filter (fun ev => !(owner ev.shardId == some workerId)),
         l.filter (fun ev => owner ev.shardId == some workerId)) := by
  induction l with
  | nil => rfl
  | cons ev rest ih =>
    rw [flushLoop, ih]
    by_cases h : (owner ev.shardId == some workerId) = true
    · simp [h]
    · simp [h]

theorem contains_addBotChild (st : RouterState) (w : String) :
    (addBotChild st w).botChildren.contains w = true := by
  simp [addBotChild]

/- ### C1, C8, C10 theorems -/

/-- Counterexample to claim C1: delivery is gated only on the presence of
a `botChildren` entry — the supervisor does not track readiness when
routing.  Worker `a` owns shard `0`; while `a` is absent, event `⟨0, 1⟩`
is buffered; then `a` is respawned (`botChildren.set` runs at fork time),
and before any `runtime:bot:ready` announcement the event `⟨0, 2⟩` arrives
and is sent to `a` immediately instead of being buffered; the flush at the
later readiness announcement then delivers the earlier event `⟨0, 1⟩`
after it, so the not-yet-ready worker receives its events out of original
arrival order, contradicting both the claimed buffering while "not yet
ready" and the claimed in-order delivery. -/
theorem event_before_ready_bypasses_queue_counterexample :
    (routeEvents respawnAbsent [⟨0, 1⟩]).2 = []
    ∧ (routeEvents respawnAbsent [⟨0, 1⟩]).1.pendingEvents = [⟨0, 1⟩]
    ∧ (routeGatewayEvent (addBotChild (routeEvents respawnAbsent [⟨0, 1⟩]).1 "a")
        ⟨0, 2⟩).2 = [("a", ⟨0, 2⟩)]
    ∧ (routeGatewayEvent (addBotChild (routeEvents respawnAbsent [⟨0, 1⟩]).1 "a")
        ⟨0, 2⟩).1.pendingEvents = [⟨0, 1⟩]
    ∧ (flushPendingEventsForWorker
        (routeGatewayEvent (addBotChild (routeEvents respawnAbsent [⟨0, 1⟩]).1 "a")
          ⟨0, 2⟩).1 "a").2 = [("a", ⟨0, 1⟩)] :=
  ⟨by decide, by decide, by decide, by decide, by decide⟩

/-- Claim C1 (amended): a sequence of inbound gateway events arriving
while the owning workers have no live child entry (mid-restart, before the
respawn) is buffered in arrival order and none of them is delivered
anywhere; once such a worker is a live child again and announces
readiness, the flush delivers exactly the buffered events owned by it, in
original arrival order, every one addressed to that worker and to no
other, while buffered events owned by other workers remain queued in their
original order.  (The supervisor does not track readiness for routing:
events arriving after the respawn but before the readiness announcement
are delivered immediately instead of being buffered.) -/
theorem pending_events_buffer_and_flush (st : RouterState) (evs : List RouteEvent)
    (w : String) (hbuf : ∀ ev ∈ evs, eventIsBuffered st ev = true) :
    (routeEvents st evs).2 = []
    ∧ (routeEvents st evs).1.pendingEvents = st.pendingEvents ++ evs
    ∧ (flushPendingEventsForWorker (addBotChild (routeEvents st evs).1 w) w).2
        = ((st.pendingEvents ++ evs).filter
            (fun ev => st.shardOwner ev.shardId == some w)).map (fun ev => (w, ev))
    ∧ (flushPendingEventsForWorker (addBotChild (routeEvents st evs).1 w) w).1.pendingEvents
        = (st.pendingEvents ++ evs).filter
            (fun ev => !(st.shardOwner ev.shardId == some w)) := by
  rw [routeEvents_buffered st evs hbuf]
  refine ⟨rfl, rfl, ?_, ?_⟩ <;>
    rw [flushPendingEventsForWorker,
      if_pos (contains_addBotChild _ w), flushLoop_eq_filter] <;>
    simp [addBotChild]

/-- Witness for C1: three events for two absent workers `a` and `b`; when
`a` becomes ready it receives exactly its two events in arrival order and
the event of `b` stays queued. -/
theorem pending_events_buffer_and_flush_witness :
    (∀ ev ∈ [RouteEvent.mk 0 10, RouteEvent.mk 1 20, RouteEvent.mk 0 30],
      eventIsBuffered
        ⟨fun sid => if sid = 0 then some "a" else if sid = 1 then some "b" else none,
          [], []⟩ ev = true)
    ∧ (flushPendingEventsForWorker
        (addBotChild
          (routeEvents
            ⟨fun sid => if sid = 0 then some "a" else if sid = 1 then some "b" else none,
              [], []⟩
            [RouteEvent.mk 0 10, RouteEvent.mk 1 20, RouteEvent.mk 0 30]).1 "a") "a").2
      = [("a", RouteEvent.mk 0 10), ("a", RouteEvent.mk 0 30)] :=
  ⟨by decide,
    by
      exact (pending_events_buffer_and_flush
        ⟨fun sid => if sid = 0 then some "a" else if sid = 1 then some "b" else none, [], []⟩
        [RouteEvent.mk 0 10, RouteEvent.mk 1 20, RouteEvent.mk 0 30] "a"
        (by decide)).2.2.1⟩

theorem lookup_filter_ne (m : List (Int × String)) (k k' : Int) (h : k' ≠ k) :
    (m.filter (fun p => p.1 != k)).lookup k' = m.lookup k' := by
  induction m with
  | nil => rfl
  | cons p rest ih =>
    by_cases hp : p.1 = k
    · have hne : ¬(k' = p.1) := by omega
      rw [List.filter_cons, if_neg (by simp [hp])]
      rw [ih]
      simp [List.lookup, beq_eq_false_iff_ne.mpr hne]
    · rw [List.filter_cons, if_pos (by simp [hp])]
      by_cases hk' : k' = p.1
      · simp [List.lookup, beq_iff_eq.mpr hk']
      · simp only [List.lookup, beq_eq_false_iff_ne.mpr hk']
        exact ih

theorem lookup_mapSet_ne (m : List (Int × String)) (k : Int) (v : String)
    (k' : Int) (h : k' ≠ k) : (mapSet m k v).lookup k' = m.lookup k' := by
  rw [mapSet]
  simp only [List.lookup, beq_eq_false_iff_ne.mpr h]
  exact lookup_filter_ne m k k' h

theorem lookup_foldl_mapSet_none (sids : List Int) (v : String) (acc : List (Int × String))
    (shardId : Int) (hacc : acc.lookup shardId = none) (h : shardId ∉ sids) :
    (sids.foldl (fun m2 sid => mapSet m2 sid v) acc).lookup shardId = none := by
  induction sids generalizing acc with
  | nil => exact hacc
  | cons sid rest ih =>
    rw [List.foldl_cons]
    refine ih _ ?_ (fun hmem => h (List.mem_cons_of_mem _ hmem))
    rw [lookup_mapSet_ne _ _ _ _
      (fun heq => h (by rw [heq]; exact List.mem_cons_self sid rest))]
    exact hacc

theorem lookup_buildShardOwner_none (workers : List RuntimeBotWorkerConfig) (shardId : Int)
    (h : ∀ w ∈ workers, shardId ∉ w.shards) :
    (buildShardOwner workers).lookup shardId = none := by
  rw [buildShardOwner]
  suffices hgen : ∀ acc : List (Int × String), acc.lookup shardId = none →
      (workers.foldl (fun m w => w.shards.foldl (fun m2 sid => mapSet m2 sid w.id) m)
        acc).lookup shardId = none by
    exact hgen [] rfl
  induction workers with
  | nil => intro acc hacc; exact hacc
  | cons w rest ih =>
    intro acc hacc
    rw [List.foldl_cons]
    refine ih (fun w' hw' => h w' (List.mem_cons_of_mem _ hw')) _ ?_
    exact lookup_foldl_mapSet_none _ _ _ _ hacc (h w (List.mem_cons_self w rest))

/-- Claim C8: `restartShard(shardId)` for a shard id owned by no worker of
the active plan rejects synchronously with the `No worker owns shard`
error and never resolves to a worker to restart, so no process is spawned
or killed and no supervisor state is touched (the throw precedes
`restartBotWorkerById`, and the resolution step itself is read-only). -/
theorem restartShard_unknown_shard (workers : List RuntimeBotWorkerConfig) (shardId : Int)
    (h : ∀ w ∈ workers, shardId ∉ w.shards) :
    restartShardResolve (buildShardOwner workers) shardId
      = .error ("No worker owns shard " ++ toString shardId ++ ".")
    ∧ ∀ workerId, restartShardResolve (buildShardOwner workers) shardId ≠ .ok workerId := by
  have hnone := lookup_buildShardOwner_none workers shardId h
  constructor
  · rw [restartShardResolve, hnone]
  · intro workerId hcontra
    rw [restartShardResolve, hnone] at hcontra
    exact Except.noConfusion hcontra

/-- Witness for C8: shard `7` is in no worker's assignment, so
`restartShard(7)` rejects synchronously. -/
theorem restartShard_unknown_shard_witness :
    (∀ w ∈ [RuntimeBotWorkerConfig.mk "bot-0" [0, 1], RuntimeBotWorkerConfig.mk "bot-1" [2, 3]],
      (7 : Int) ∉ w.shards)
    ∧ restartShardResolve
        (buildShardOwner
          [RuntimeBotWorkerConfig.mk "bot-0" [0, 1], RuntimeBotWorkerConfig.mk "bot-1" [2, 3]]) 7
        = .error "No worker owns shard 7." :=
  ⟨by decide,
    (restartShard_unknown_shard
      [RuntimeBotWorkerConfig.mk "bot-0" [0, 1], RuntimeBotWorkerConfig.mk "bot-1" [2, 3]]
      7 (by decide)).1⟩

/-- Claim C10: a bot worker dispatches a delivered gateway event to its
handlers iff the event's shard id belongs to the worker's assigned shard
set; an event for any other shard is silently dropped, so a misrouted
event is never executed by a non-owning worker. -/
theorem botWorker_dispatch_iff_owned (shards : List Int) (sid : Int) (payload : Nat) :
    (shards.contains sid = true →
      botHandleMessage shards (.gatewayEvent sid payload) = .dispatch sid payload)
    ∧ (shards.contains sid = false →
      botHandleMessage shards (.gatewayEvent sid payload) = .ignore) := by
  constructor <;> intro h <;> simp [botHandleMessage, h] <;> simpa using h

/-- Witness for C10: a worker owning shards `[0, 1]` dispatches an event
for shard `1` and drops an event for shard `5`. -/
theorem botWorker_dispatch_iff_owned_witness :
    (([0, 1] : List Int).contains 1 = true
      ∧ botHandleMessage [0, 1] (.gatewayEvent 1 9) = .dispatch 1 9)
    ∧ (([0, 1] : List Int).contains 5 = false
      ∧ botHandleMessage [0, 1] (.gatewayEvent 5 9) = .ignore) :=
  ⟨⟨by decide, (botWorker_dispatch_iff_owned [0, 1] 1 9).1 (by decide)⟩,
   ⟨by decide, (botWorker_dispatch_iff_owned [0, 1] 5 9).2 (by decide)⟩⟩

/- ### Lifecycle lemmas and the C6, C7 theorems -/

theorem handleBotExit_stopped (s : SupState) (w : RuntimeBotWorkerConfig) :
    (handleBotExit s w).stopped = s.stopped := by
  rw [handleBotExit]
  split <;> rfl

theorem stopSupervisor_stopped (s : SupState) : (stopSupervisor s).stopped = true := by
  rw [stopSupervisor]
  split <;> simp_all

theorem supStep_stopped (s : SupState) (e : SupEvent) (h : s.stopped = true) :
    (supStep s e).1.stopped = true ∧ (supStep s e).2 = [] := by
  cases e with
  | botExit w =>
    exact ⟨by rw [supStep, handleBotExit_stopped]; exact h, rfl⟩
  | respawnTimer t =>
    rw [supStep, fireRespawnTimer]
    split
    · rw [if_pos (by simp [h])]
      exact ⟨h, rfl⟩
    · exact ⟨h, rfl⟩
  | callStop =>
    exact ⟨stopSupervisor_stopped s, rfl⟩

theorem supRun_stopped (s : SupState) (evs : List SupEvent) (h : s.stopped = true) :
    (supRun s evs).1.stopped = true ∧ (supRun s evs).2 = [] := by
  induction evs generalizing s with
  | nil => exact ⟨h, rfl⟩
  | cons e rest ih =>
    obtain ⟨h1, h2⟩ := supStep_stopped s e h
    obtain ⟨h3, h4⟩ := ih _ h1
    rw [supRun]
    exact ⟨h3, by simp [h2, h4]⟩

/-- Claim C6: once `stop()` has run, no worker process is ever respawned
again — whatever bot exits, respawn-timer firings and further stop calls
are still in flight afterwards (including exit events of workers that were
running when `stop()` was called), none of them spawns anything: the exit
handler does not schedule while stopped, and an already-scheduled timer's
body re-checks the `stopped` flag before spawning. -/
theorem stop_prevents_respawn (s : SupState) (evs1 evs2 : List SupEvent) :
    (supRun (supRun s (evs1 ++ [SupEvent.callStop])).1 evs2).2 = [] := by
  suffices hstop : (supRun s (evs1 ++ [SupEvent.callStop])).1.stopped = true by
    exact (supRun_stopped _ evs2 hstop).2
  induction evs1 generalizing s with
  | nil =>
    rw [List.nil_append, supRun, supRun]
    exact stopSupervisor_stopped s
  | cons e rest ih =>
    rw [List.cons_append, supRun]
    exact ih _

/-- Claim C7: a bot-worker exit that is unexpected (its id is not in the
expected-shutdown set) while the supervisor is neither stopped nor
reloading schedules a respawn timer with a 250 ms backoff that captures
the very same `WorkerConfig` the worker had, and when that timer fires
with the supervisor still not stopped and the worker still absent, exactly
that worker is spawned; an exit flagged as an expected shutdown never
schedules a respawn (and consumes the flag). -/
theorem unexpected_exit_respawns_expected_does_not
    (s s2 : SupState) (w : RuntimeBotWorkerConfig) :
    (s.stopped = false → s.reloading = false →
      s.expectedShutdowns.contains w.id = false →
      handleBotExit s w
        = { s with botChildren := s.botChildren.erase w.id,
                   expectedShutdowns := s.expectedShutdowns.erase w.id,
                   pendingRespawns := s.pendingRespawns ++ [⟨w, 250⟩] })
    ∧ (s2.pendingRespawns.contains ⟨w, 250⟩ = true → s2.stopped = false →
        s2.botChildren.contains w.id = false →
        (fireRespawnTimer s2 ⟨w, 250⟩).2 = [w])
    ∧ (s.expectedShutdowns.contains w.id = true →
        (handleBotExit s w).pendingRespawns = s.pendingRespawns) := by
  refine ⟨?_, ?_, ?_⟩
  · intro h1 h2 h3
    have h3' : w.id ∉ s.expectedShutdowns := by simpa using h3
    rw [handleBotExit]
    rw [if_pos (by simp [h1, h2, h3'])]
  · intro h1 h2 h3
    have h3' : w.id ∉ s2.botChildren := by simpa using h3
    rw [fireRespawnTimer, if_pos h1, if_neg (by simp [h2, h3'])]
  · intro h1
    have h1' : w.id ∈ s.expectedShutdowns := by simpa using h1
    rw [handleBotExit]
    rw [if_neg (by simp [h1'])]

/-- Witness for C7: worker `bot-0` crashing unexpectedly gets a 250 ms
respawn timer with its own config, the timer firing spawns it, and an
expected shutdown of `bot-0` schedules nothing. -/
theorem unexpected_exit_respawns_expected_does_not_witness :
    (((⟨false, false, ["bot-0"], [], []⟩ : SupState).stopped = false
      ∧ (⟨false, false, ["bot-0"], [], []⟩ : SupState).reloading = false
      ∧ (["bot-0"] : List String) ≠ []
      ∧ handleBotExit ⟨false, false, ["bot-0"], [], []⟩ ⟨"bot-0", [0]⟩
          = ⟨false, false, [], [], [⟨⟨"bot-0", [0]⟩, 250⟩]⟩)
    ∧ (fireRespawnTimer ⟨false, false, [], [], [⟨⟨"bot-0", [0]⟩, 250⟩]⟩
        ⟨⟨"bot-0", [0]⟩, 250⟩).2 = [⟨"bot-0", [0]⟩])
    ∧ (handleBotExit ⟨false, false, ["bot-0"], ["bot-0"], []⟩
        ⟨"bot-0", [0]⟩).pendingRespawns = [] :=
  ⟨⟨⟨rfl, rfl, by decide,
      by
        exact (unexpected_exit_respawns_expected_does_not
          ⟨false, false, ["bot-0"], [], []⟩ ⟨false, false, [], [], [⟨⟨"bot-0", [0]⟩, 250⟩]⟩
          ⟨"bot-0", [0]⟩).1 (by decide) (by decide) (by decide)⟩,
    by
      exact (unexpected_exit_respawns_expected_does_not
        ⟨false, false, ["bot-0"], [], []⟩ ⟨false, false, [], [], [⟨⟨"bot-0", [0]⟩, 250⟩]⟩
        ⟨"bot-0", [0]⟩).2.1 (by decide) (by decide) (by decide)⟩,
    by
      exact (unexpected_exit_respawns_expected_does_not
        ⟨false, false, ["bot-0"], ["bot-0"], []⟩ ⟨false, false, [], [], []⟩
        ⟨"bot-0", [0]⟩).2.2 (by decide)⟩

/- ### Sorting lemmas and the C2 theorems -/

theorem sortInsert_perm (le : α → α → Bool) (a : α) (l : List α) :
    (sortInsert le a l).Perm (a :: l) := by
  induction l with
  | nil => exact List.Perm.refl _
  | cons b rest ih =>
    rw [sortInsert]
    split
    · exact List.Perm.refl _
    · exact ((List.perm_cons b).mpr ih).trans (List.Perm.swap a b rest)

theorem sortByLe_perm (le : α → α → Bool) (l : List α) : (sortByLe le l).Perm l := by
  induction l with
  | nil => exact List.Perm.refl _
  | cons a rest ih =>
    exact (sortInsert_perm le a _).trans ((List.perm_cons a).mpr ih)

theorem mem_sortInsert (le : α → α → Bool) (a x : α) (l : List α)
    (h : x ∈ sortInsert le a l) : x = a ∨ x ∈ l := by
  have := (sortInsert_perm le a l).mem_iff.mp h
  simpa using this

theorem sortInsert_pairwise_le (a : RuntimeBotWorkerConfig)
    (l : List RuntimeBotWorkerConfig)
    (h : l.Pairwise (fun x y => lowestShardKey x ≤ lowestShardKey y)) :
    (sortInsert (fun x y => decide (lowestShardKey x ≤ lowestShardKey y)) a l).Pairwise
      (fun x y => lowestShardKey x ≤ lowestShardKey y) := by
  induction l with
  | nil => simp [sortInsert]
  | cons b rest ih =>
    rw [List.pairwise_cons] at h
    obtain ⟨hb, hrest⟩ := h
    rw [sortInsert]
    by_cases hab : (decide (lowestShardKey a ≤ lowestShardKey b)) = true
    · rw [if_pos hab]
      have hab' : lowestShardKey a ≤ lowestShardKey b := of_decide_eq_true hab
      refine List.Pairwise.cons ?_ (List.Pairwise.cons hb hrest)
      intro y hy
      rcases List.mem_cons.mp hy with rfl | hy'
      · exact hab'
      · exact le_trans hab' (hb y hy')
    · rw [if_neg hab]
      have hab' : ¬ lowestShardKey a ≤ lowestShardKey b := by simpa using hab
      refine List.Pairwise.cons ?_ (ih hrest)
      intro y hy
      rcases mem_sortInsert _ _ _ _ hy with rfl | hy'
      · exact le_of_not_le hab'
      · exact hb y hy'

theorem sortWorkersByLowestShard_pairwise (workers : List RuntimeBotWorkerConfig) :
    (sortWorkersByLowestShard workers).Pairwise
      (fun x y => lowestShardKey x ≤ lowestShardKey y) := by
  rw [sortWorkersByLowestShard]
  induction workers with
  | nil => simp [sortByLe]
  | cons a rest ih =>
    rw [sortByLe]
    exact sortInsert_pairwise_le a _ ih

/-- Counterexample to claim C2: on the spec's own scenario (three workers
owning `[0-1]`, `[2-3]`, `[4-5]`), the schedule in which every readiness
announcement arrives only after the whole restart loop is a valid
execution of `reloadLazy` — the loop awaits each worker's exit and
respawn, but no step waits for readiness — and after its fourth step
(`sendShutdown "w1"`) the workers `w0` and `w1` are simultaneously
non-ready, contradicting both the claimed wait for readiness before the
next shutdown and the claimed consequence that no two workers are ever in
a non-ready state at once. -/
theorem reloadLazy_readiness_not_awaited_counterexample :
    validSchedule
        (reloadLazyTrace [⟨"w0", [0, 1]⟩, ⟨"w1", [2, 3]⟩, ⟨"w2", [4, 5]⟩])
        lazyOverlapSchedule = true
    ∧ nonReadyAfter (lazyOverlapSchedule.take 4) = ["w0", "w1"] :=
  ⟨by decide, by decide⟩

/-- Claim C2 (amended): `reloadLazy` restarts the workers one at a time in
strictly ascending order of lowest-owned shard id — the restart loop's
trace is exactly, per sorted worker, shutdown, await of its exit, then its
respawn, all before the next worker's shutdown — but the respawned
worker's readiness announcement is not awaited before proceeding, so two
workers can transiently be non-ready at once. -/
theorem reloadLazy_restart_order (workers : List RuntimeBotWorkerConfig)
    (hkeys : (workers.map lowestShardKey).Nodup) :
    reloadLazyTrace workers
      = (sortWorkersByLowestShard workers).flatMap (fun w => restartWorkerTrace w.id)
    ∧ (sortWorkersByLowestShard workers).Perm workers
    ∧ ((sortWorkersByLowestShard workers).map lowestShardKey).Pairwise (· < ·) := by
  have hperm : (sortWorkersByLowestShard workers).Perm workers := sortByLe_perm _ _
  refine ⟨rfl, hperm, ?_⟩
  have hle : ((sortWorkersByLowestShard workers).map lowestShardKey).Pairwise (· ≤ ·) :=
    List.pairwise_map.mpr (sortWorkersByLowestShard_pairwise workers)
  have hnd : ((sortWorkersByLowestShard workers).map lowestShardKey).Nodup :=
    (hperm.map lowestShardKey).nodup_iff.mpr hkeys
  exact hle.imp₂ (fun a b h1 h2 => lt_of_le_of_ne h1 h2) hnd

/-- Witness for the amended C2 on the spec's scenario: the three workers'
lowest-owned shard ids are distinct and the sorted restart order has
strictly ascending lowest-owned shard ids. -/
theorem reloadLazy_restart_order_witness :
    (([⟨"w0", [0, 1]⟩, ⟨"w1", [2, 3]⟩, ⟨"w2", [4, 5]⟩] :
        List RuntimeBotWorkerConfig).map lowestShardKey).Nodup
    ∧ ((sortWorkersByLowestShard
          [⟨"w0", [0, 1]⟩, ⟨"w1", [2, 3]⟩, ⟨"w2", [4, 5]⟩]).map lowestShardKey).Pairwise
        (· < ·) :=
  ⟨by decide, (reloadLazy_restart_order _ (by decide)).2.2⟩

/- ### Reload-serialization lemmas and the C5 theorems -/

theorem twoReloadRun_not_stopped (sched : List (ReloadTag × ReloadStep)) (r : Bool) :
    (twoReloadRun ⟨false, r, false, false⟩ sched).2 = sched := by
  induction sched generalizing r with
  | nil => rfl
  | cons e rest ih =>
    obtain ⟨t, st⟩ := e
    cases t <;> cases st <;>
      simp [twoReloadRun, twoReloadStep, tagAborted, ih]

theorem twoReloadRun_stopped_silent (sched : List (ReloadTag × ReloadStep))
    (aE bE : Bool) (s : TwoReloadState) (hs : s.stopped = true)
    (ha : aE = true → s.aAborted = true) (hb : bE = true → s.bAborted = true)
    (hwf : entersFirst aE bE sched = true) :
    (twoReloadRun s sched).2 = [] := by
  induction sched generalizing aE bE s with
  | nil => rfl
  | cons e rest ih =>
    obtain ⟨t, st⟩ := e
    rw [twoReloadRun]
    cases t with
    | A =>
      cases st with
      | enter =>
        simp only [entersFirst] at hwf
        simp only [twoReloadStep, tagAborted]
        by_cases hab : s.aAborted = true
        · rw [if_pos hab]
          simpa using ih true bE s hs (fun _ => hab) hb hwf
        · rw [if_neg hab, if_pos hs]
          refine ?_
          simpa using ih true bE (setAborted s .A)
            (by simpa [setAborted] using hs)
            (fun _ => by simp [setAborted])
            (fun h => by simpa [setAborted] using hb h) hwf
      | restart w =>
        simp only [entersFirst, Bool.and_eq_true] at hwf
        obtain ⟨haE, hwf⟩ := hwf
        have hab := ha haE
        simp only [twoReloadStep, tagAborted]
        rw [if_pos hab]
        simpa using ih aE bE s hs ha hb hwf
      | exitStep =>
        simp only [entersFirst, Bool.and_eq_true] at hwf
        obtain ⟨haE, hwf⟩ := hwf
        have hab := ha haE
        simp only [twoReloadStep, tagAborted]
        rw [if_pos hab]
        simpa using ih aE bE s hs ha hb hwf
    | B =>
      cases st with
      | enter =>
        simp only [entersFirst] at hwf
        simp only [twoReloadStep, tagAborted]
        by_cases hab : s.bAborted = true
        · rw [if_pos hab]
          simpa using ih aE true s hs ha (fun _ => hab) hwf
        · rw [if_neg hab, if_pos hs]
          refine ?_
          simpa using ih aE true (setAborted s .B)
            (by simpa [setAborted] using hs)
            (fun h => by simpa [setAborted] using ha h)
            (fun _ => by simp [setAborted]) hwf
      | restart w =>
        simp only [entersFirst, Bool.and_eq_true] at hwf
        obtain ⟨hbE, hwf⟩ := hwf
        have hbb := hb hbE
        simp only [twoReloadStep, tagAborted]
        rw [if_pos hbb]
        simpa using ih aE bE s hs ha hb hwf
      | exitStep =>
        simp only [entersFirst, Bool.and_eq_true] at hwf
        obtain ⟨hbE, hwf⟩ := hwf
        have hbb := hb hbE
        simp only [twoReloadStep, tagAborted]
        rw [if_pos hbb]
        simpa using ih aE bE s hs ha hb hwf

/-- Counterexample to claim C5: the only early return of
`reload`/`reloadLazy`/`fullReload` is `if (stopped) return;` — the
`reloading` flag is never consulted — so this valid interleaving of two
`reloadLazy` invocations (supervisor not stopped) executes every step of
both, and the second invocation performs both of its restart steps while
the first is still in the reloading state. -/
theorem reload_not_serialized_counterexample :
    isInterleaving (reloadLazyProgram [⟨"w0", [0]⟩, ⟨"w1", [1]⟩])
        (reloadLazyProgram [⟨"w0", [0]⟩, ⟨"w1", [1]⟩]) reloadOverlapSchedule = true
    ∧ (twoReloadRun ⟨false, false, false, false⟩ reloadOverlapSchedule).2
        = reloadOverlapSchedule
    ∧ overlappedRestarts
        (twoReloadRun ⟨false, false, false, false⟩ reloadOverlapSchedule).2
        = [.B, .B] :=
  ⟨by decide, by decide, by decide⟩

/-- Claim C5 (amended): a reload invocation is a no-op only when the
supervisor is stopped; the `reloading` flag does not serialize reloads.
With the supervisor not stopped, every scheduled step of two overlapping
reload invocations executes — in particular a second reload entered while
the first is reloading still runs its restart steps — and with the
supervisor stopped, both invocations return at their guard and no body
step executes. -/
theorem reload_guard_only_checks_stopped (sched : List (ReloadTag × ReloadStep))
    (r : Bool) (hwf : entersFirst false false sched = true) :
    (twoReloadRun ⟨false, r, false, false⟩ sched).2 = sched
    ∧ (twoReloadRun ⟨true, r, false, false⟩ sched).2 = [] :=
  ⟨twoReloadRun_not_stopped sched r,
    twoReloadRun_stopped_silent sched false false _ rfl
      (fun h => absurd h (by decide)) (fun h => absurd h (by decide)) hwf⟩

/-- Witness for the amended C5 on a two-`enter` schedule: with the
supervisor running both enters execute; with it stopped neither does. -/
theorem reload_guard_only_checks_stopped_witness :
    entersFirst false false
        [(ReloadTag.A, ReloadStep.enter), (ReloadTag.B, ReloadStep.enter)] = true
    ∧ (twoReloadRun ⟨false, false, false, false⟩
        [(ReloadTag.A, ReloadStep.enter), (ReloadTag.B, ReloadStep.enter)]).2
        = [(ReloadTag.A, ReloadStep.enter), (ReloadTag.B, ReloadStep.enter)]
    ∧ (twoReloadRun ⟨true, false, false, false⟩
        [(ReloadTag.A, ReloadStep.enter), (ReloadTag.B, ReloadStep.enter)]).2 = [] :=
  ⟨by decide,
    (reload_guard_only_checks_stopped
      [(ReloadTag.A, ReloadStep.enter), (ReloadTag.B, ReloadStep.enter)] false (by decide)).1,
    (reload_guard_only_checks_stopped
      [(ReloadTag.A, ReloadStep.enter), (ReloadTag.B, ReloadStep.enter)] false (by decide)).2⟩

/- ### Shard-info correlation lemmas and the C4 theorems -/

theorem lookup_filter_key_self (m : List (String × String)) (k : String) :
    (m.filter (fun p => p.1 != k)).lookup k = none := by
  induction m with
  | nil => rfl
  | cons p rest ih =>
    by_cases hp : p.1 = k
    · rw [List.filter_cons, if_neg (by simp [hp])]
      exact ih
    · rw [List.filter_cons, if_pos (by simp [hp])]
      have hne : ¬(k = p.1) := fun h => hp h.symm
      simp only [List.lookup, beq_eq_false_iff_ne.mpr hne]
      exact ih

/-- Counterexample to claim C4: after worker `w` issues a get-shard-info
request with nonce `n` and the caller-side 5 s timeout fires, the caller
has resolved with the timeout error, yet the supervisor's correlation
entry `n → w` is still present — the timeout removes only the caller's
own listener, and no supervisor code evicts `shardInfoRequests` entries on
timeout — and the late response is not a no-op at the supervisor: it is
forwarded to `w`. -/
theorem shardInfo_timeout_entry_not_removed_counterexample :
    (callerOnTimeout ⟨true, "n", none⟩).outcome = some .timeoutError
    ∧ (supervisorOnShardInfoRequest [] "n" "w").lookup "n" = some "w"
    ∧ (supervisorOnShardInfoResponse (supervisorOnShardInfoRequest [] "n" "w")
        ⟨"n", 0, 5⟩).2 = [("w", ⟨"n", 0, 5⟩)] :=
  ⟨by decide, by decide, by decide⟩

/-- Claim C4 (amended): a correlated get-shard-info request with no
response within the timeout resolves as a distinct timeout error to the
caller, which removes its own listener, so a late response is a no-op for
the caller; the supervisor's `nonce → requester` correlation entry is not
removed by the timeout — it is removed only when a (possibly late)
response with that nonce arrives, at which point the supervisor forwards
the response to the original requester and to no one else. -/
theorem shardInfo_timeout_behavior (c : CallerState) (m : List (String × String))
    (r : ShardInfoResponse) (w : String)
    (hl : c.listening = true) (hm : m.lookup r.nonce = some w) :
    (callerOnTimeout c).outcome = some .timeoutError
    ∧ (callerOnTimeout c).listening = false
    ∧ callerOnMessage (callerOnTimeout c) r = callerOnTimeout c
    ∧ (supervisorOnShardInfoResponse m r).2 = [(w, r)]
    ∧ (supervisorOnShardInfoResponse m r).1.lookup r.nonce = none := by
  refine ⟨?_, ?_, ?_, ?_, ?_⟩
  · rw [callerOnTimeout, if_pos hl]
  · rw [callerOnTimeout, if_pos hl]
  · rw [callerOnTimeout, if_pos hl]
    simp [callerOnMessage]
  · simp [supervisorOnShardInfoResponse, hm]
  · simp [supervisorOnShardInfoResponse, hm, lookup_filter_key_self]

/-- Witness for the amended C4: nonce `n` from worker `w`; the late
response is forwarded to `w` and the entry is gone afterwards. -/
theorem shardInfo_timeout_behavior_witness :
    ((⟨true, "n", none⟩ : CallerState).listening = true
      ∧ ([("n", "w")] : List (String × String)).lookup "n" = some "w")
    ∧ (supervisorOnShardInfoResponse [("n", "w")]
        ⟨"n", 3, 42⟩).2 = [("w", ⟨"n", 3, 42⟩)] :=
  ⟨⟨by decide, by decide⟩,
    (shardInfo_timeout_behavior ⟨true, "n", none⟩ [("n", "w")] ⟨"n", 3, 42⟩ "w"
      (by decide) (by decide)).2.2.2.1⟩

end Snowcord
